import Mathlib

/-!
Shallow embedding of the real-time distribution layer and response cache of
src/Backend/server.js (Express + socket.io server of the case-management
application).

Modelling conventions:
* a socket.io room is a set of member sockets; we model the whole room table
  as a duplicate-free list of (socketId, roomName) pairs, and joining an
  already-joined socket is a no-op (socket.io `socket.join` semantics);
* `connectedUsers` (the `Map` of socketId to userId at server.js:92) is an
  association list with JS `Map.set`/`Map.delete` semantics;
* `Date.now()` readings are naturals (milliseconds); `new Date().toISOString()`
  is an injective rendering of the clock reading, so the `timestamp` field is
  modelled by the reading itself;
* an `io.to(room).emit(event, payload)` call delivers the payload once to every
  current member of the room and changes no server state; a handler run is a
  function from the state to the state paired with the delivery list;
* JS truthiness of an optional string field (`if (assignedUserId)` at
  server.js:156): undefined and the empty string are falsy, every other
  string is truthy.
-/

namespace PrinceProject

abbrev SocketId := String
abbrev UserId := String
abbrev Millis := Nat

/-- JS Map.set on an association list: replace the value at an existing key,
otherwise add the binding. -/
def setAssoc {α : Type} (m : List (String × α)) (k : String) (v : α) :
    List (String × α) :=
  if m.any (fun p => p.1 == k) then
    m.map (fun p => if p.1 == k then (k, v) else p)
  else
    (k, v) :: m

/-- JS Map.get on an association list. -/
def getAssoc {α : Type} (m : List (String × α)) (k : String) : Option α :=
  (m.find? (fun p => p.1 == k)).map (fun p => p.2)

/-- JS Map.delete on an association list. -/
def delAssoc {α : Type} (m : List (String × α)) (k : String) :
    List (String × α) :=
  m.filter (fun p => p.1 != k)

/-- The socket.io-facing state of server.js: the socketId-to-userId map
`connectedUsers` (server.js:92), the room-membership table maintained by
`socket.join` / `socket.leave`, and the set of live transport connections. -/
structure ServerState where
  connectedUsers : List (SocketId × UserId)
  rooms : List (SocketId × String)
  liveSockets : List SocketId
deriving DecidableEq, Repr

/-- State of the process before any client connects. -/
def initialState : ServerState := ⟨[], [], []⟩

/-- socket.io room join: a set insertion (joining twice is a no-op). -/
def joinRoom (st : ServerState) (s : SocketId) (room : String) : ServerState :=
  if (s, room) ∈ st.rooms then st
  else { st with rooms := (s, room) :: st.rooms }

/-- socket.io room leave. -/
def leaveRoom (st : ServerState) (s : SocketId) (room : String) : ServerState :=
  { st with rooms := st.rooms.filter (fun p => p != (s, room)) }

/-- Members of a room, given a room table. -/
def roomMembers (rooms : List (SocketId × String)) (room : String) :
    List SocketId :=
  (rooms.filter (fun p => p.2 == room)).map (fun p => p.1)

/-- Members of a room in a server state. -/
def membersOf (st : ServerState) (room : String) : List SocketId :=
  roomMembers st.rooms room

/-- io.to(room).emit(...): one delivery of the payload to every member of the
room. -/
def emitToRoom {α : Type} (st : ServerState) (room : String) (payload : α) :
    List (SocketId × α) :=
  (membersOf st room).map (fun m => (m, payload))

/-- The payloads a given socket receives out of a delivery list. -/
def deliveriesTo {α : Type} (ds : List (SocketId × α)) (s : SocketId) :
    List α :=
  (ds.filter (fun pr => pr.1 == s)).map (fun pr => pr.2)

/-- io.on connection (server.js:94): the transport session starts; no
registry entry and no room membership is created yet. -/
def onConnection (st : ServerState) (s : SocketId) : ServerState :=
  { st with liveSockets := s :: st.liveSockets }

/-- The authenticate handler (server.js:98-102):
connectedUsers.set(socket.id, userId) and socket.join(user:userId). -/
def authenticate (st : ServerState) (s : SocketId) (userId : UserId) :
    ServerState :=
  joinRoom { st with connectedUsers := setAssoc st.connectedUsers s userId }
    s ("user:" ++ userId)

/-- The join:case handler (server.js:105-108): socket.join(case:caseId),
with no authentication check. -/
def joinCase (st : ServerState) (s : SocketId) (caseId : String) :
    ServerState :=
  joinRoom st s ("case:" ++ caseId)

/-- The leave:case handler (server.js:111-114). -/
def leaveCase (st : ServerState) (s : SocketId) (caseId : String) :
    ServerState :=
  leaveRoom st s ("case:" ++ caseId)

/-- The disconnect handler (server.js:164-171) deletes the socket from
connectedUsers when its stored userId is truthy (the code guards the delete
with `if (userId)`, so an empty-string binding is kept); the socket.io
framework also removes the dead socket from every room and from the
live-connection set. -/
def disconnect (st : ServerState) (s : SocketId) : ServerState :=
  let st1 :=
    match getAssoc st.connectedUsers s with
    | some u =>
        if u = "" then st
        else { st with connectedUsers := delAssoc st.connectedUsers s }
    | none => st
  { st1 with
    rooms := st1.rooms.filter (fun p => p.1 != s),
    liveSockets := st1.liveSockets.filter (fun x => x != s) }

/-- Payload of a chat:send event (server.js:118). -/
structure ChatSendData where
  receiverId : UserId
  senderId : UserId
  senderName : String
  message : String
deriving DecidableEq, Repr

/-- The server-minted message id msg-Date.now() (server.js:122). -/
def mintId (now : Millis) : String :=
  "msg-" ++ Nat.repr now

/-- The chat:receive payload built by the chat:send handler
(server.js:121-128). -/
structure ChatReceivePayload where
  id : String
  senderId : UserId
  senderName : String
  message : String
  timestamp : Millis
  read : Bool
deriving DecidableEq, Repr

/-- The payload the chat:send handler emits (server.js:121-128). -/
def chatReceivePayload (d : ChatSendData) (now : Millis) : ChatReceivePayload :=
  { id := mintId now
    senderId := d.senderId
    senderName := d.senderName
    message := d.message
    timestamp := now
    read := false }

/-- The chat:send handler (server.js:117-131): emit chat:receive to the
receiver's identity room user:receiverId; no state change. -/
def chatSend (st : ServerState) (d : ChatSendData) (now : Millis) :
    ServerState × List (SocketId × ChatReceivePayload) :=
  (st, emitToRoom st ("user:" ++ d.receiverId) (chatReceivePayload d now))

/-- Payload of a case:update event (server.js:150); assignedUserId is an
optional field of the incoming object. -/
structure CaseUpdateData where
  caseId : String
  update : String
  assignedUserId : Option UserId
deriving DecidableEq, Repr

/-- The case:update handler (server.js:149-161): emit case:updated to the
case room, and additionally to the assignee's identity room when
assignedUserId is truthy; no state change. -/
def caseUpdate (st : ServerState) (d : CaseUpdateData) :
    ServerState × List (SocketId × String) :=
  let caseDeliveries := emitToRoom st ("case:" ++ d.caseId) d.update
  let userDeliveries :=
    match d.assignedUserId with
    | some u => if u = "" then [] else emitToRoom st ("user:" ++ u) d.update
    | none => []
  (st, caseDeliveries ++ userDeliveries)

/-- The connection count the /health route reports (server.js:183):
connectedUsers.size. -/
def healthSockets (st : ServerState) : Nat :=
  st.connectedUsers.length

/-! The response cache (server.js:16-39). -/

/-- CACHE_TTL = 30 * 1000 milliseconds (server.js:18). -/
def CACHE_TTL : Nat := 30 * 1000

/-- One entry of the in-memory response cache (server.js:34). -/
structure CacheEntry where
  data : String
  timestamp : Millis
deriving DecidableEq, Repr

/-- The in-memory cache Map keyed by req.originalUrl (server.js:17). -/
abbrev Cache := List (String × CacheEntry)

/-- The part of an Express request cacheMiddleware reads: the method and
req.originalUrl, which is the request path plus query string. -/
structure Req where
  method : String
  originalUrl : String
deriving DecidableEq, Repr

/-- What a downstream handler does with the response: send a JSON body with
some status code (res.json, possibly after res.status), or respond by some
other means that does not go through res.json. -/
inductive HandlerResp where
  | jsonResp (status : Nat) (data : String)
  | otherResp
deriving DecidableEq, Repr

/-- Observable outcome of one request through cacheMiddleware: either the
cached value was served without running the downstream handler, or the
downstream handler ran and produced its response. -/
inductive CacheOutcome where
  | servedFromCache (data : String)
  | computed (resp : HandlerResp)
deriving DecidableEq, Repr

/-- cacheMiddleware (server.js:21-39). Non-GET requests pass straight
through. For a GET request the entry under req.originalUrl is served when
now - timestamp < CACHE_TTL; otherwise the downstream handler runs with
res.json overridden to store whatever body it sends, whatever its status.
JS computes a possibly negative difference while Nat subtraction truncates
at 0; both sides of the comparison select the same branch, since a clock
reading below the stored timestamp is below it by less than the TTL exactly
when the truncated difference is. -/
def cacheMiddleware (cache : Cache) (now : Millis) (req : Req)
    (handler : Req → HandlerResp) : CacheOutcome × Cache :=
  if req.method ≠ "GET" then
    (CacheOutcome.computed (handler req), cache)
  else
    let key := req.originalUrl
    let run : CacheOutcome × Cache :=
      match handler req with
      | HandlerResp.jsonResp status data =>
          (CacheOutcome.computed (HandlerResp.jsonResp status data),
           setAssoc cache key ⟨data, now⟩)
      | HandlerResp.otherResp => (CacheOutcome.computed HandlerResp.otherResp, cache)
    match getAssoc cache key with
    | some cached =>
        if now - cached.timestamp < CACHE_TTL then
          (CacheOutcome.servedFromCache cached.data, cache)
        else run
    | none => run

/-- Concrete state used by several witnesses: identity B authenticated on two
devices b1 and b2, identity A authenticated on device a1. -/
def stB2 : ServerState :=
  ⟨[("b1", "B"), ("b2", "B"), ("a1", "A")],
   [("b1", "user:B"), ("b2", "user:B"), ("a1", "user:A")],
   ["b1", "b2", "a1"]⟩

/-! Helper lemmas about delivery lists and the registry maps. -/

theorem deliveriesTo_append {α : Type} (ds es : List (SocketId × α))
    (s : SocketId) :
    deliveriesTo (ds ++ es) s = deliveriesTo ds s ++ deliveriesTo es s := by
  simp [deliveriesTo, List.filter_append]

theorem deliveriesTo_map_roomMembers {α : Type}
    (rooms : List (SocketId × String)) (room : String) (p : α) (s : SocketId) :
    deliveriesTo ((roomMembers rooms room).map (fun m => (m, p))) s =
      List.replicate ((rooms.filter (fun q => decide (q = (s, room)))).length) p := by
  induction rooms with
  | nil => rfl
  | cons q t ih =>
    obtain ⟨a, b⟩ := q
    by_cases hb : b = room
    · subst hb
      by_cases ha : a = s
      · subst ha
        simpa [roomMembers, deliveriesTo, List.filter_cons, List.replicate_succ]
          using ih
      · simpa [roomMembers, deliveriesTo, List.filter_cons, ha] using ih
    · simpa [roomMembers, deliveriesTo, List.filter_cons, hb] using ih

theorem deliveriesTo_emitToRoom {α : Type} (st : ServerState) (room : String)
    (p : α) (s : SocketId) :
    deliveriesTo (emitToRoom st room p) s =
      List.replicate ((st.rooms.filter (fun q => decide (q = (s, room)))).length) p :=
  deliveriesTo_map_roomMembers st.rooms room p s

theorem length_filter_decide_of_nodup {α : Type} [DecidableEq α] {l : List α}
    (x : α) (h : l.Nodup) :
    (l.filter (fun a => decide (a = x))).length = if x ∈ l then 1 else 0 := by
  induction l with
  | nil => rfl
  | cons a t ih =>
    rw [List.nodup_cons] at h
    by_cases hx : a = x
    · subst hx
      have h0 : (t.filter (fun b => decide (b = a))).length = 0 := by
        rw [List.length_eq_zero, List.filter_eq_nil_iff]
        intro b hb
        simp only [decide_eq_true_eq]
        intro e
        exact h.1 (e ▸ hb)
      simp [List.filter_cons, h0]
    · simp only [List.filter_cons, decide_eq_true_eq, hx, if_false, List.mem_cons]
      rw [ih h.2]
      simp [Ne.symm hx]

theorem length_pos_filter_decide_iff {α : Type} [DecidableEq α] (l : List α)
    (x : α) : 0 < (l.filter (fun a => decide (a = x))).length ↔ x ∈ l := by
  rw [List.length_pos]
  constructor
  · intro h
    rw [Ne, List.filter_eq_nil_iff] at h
    push_neg at h
    obtain ⟨a, ha, he⟩ := h
    rw [decide_eq_true_eq] at he
    exact he ▸ ha
  · intro h he
    have := List.filter_eq_nil_iff.mp he x h
    simp at this

theorem length_deliveriesTo_emitToRoom {α : Type} (st : ServerState)
    (room : String) (p : α) (s : SocketId) (h : st.rooms.Nodup) :
    (deliveriesTo (emitToRoom st room p) s).length =
      if (s, room) ∈ st.rooms then 1 else 0 := by
  rw [deliveriesTo_emitToRoom, List.length_replicate,
    length_filter_decide_of_nodup (s, room) h]
  by_cases hm : (s, room) ∈ st.rooms <;> simp [hm]

theorem eq_of_mem_deliveriesTo_emitToRoom {α : Type} {st : ServerState}
    {room : String} {p q : α} {s : SocketId}
    (h : q ∈ deliveriesTo (emitToRoom st room p) s) : q = p := by
  rw [deliveriesTo_emitToRoom] at h
  exact List.eq_of_mem_replicate h

theorem length_pos_deliveriesTo_emitToRoom {α : Type} (st : ServerState)
    (room : String) (p : α) (s : SocketId) (h : (s, room) ∈ st.rooms) :
    0 < (deliveriesTo (emitToRoom st room p) s).length := by
  rw [deliveriesTo_emitToRoom, List.length_replicate]
  exact (length_pos_filter_decide_iff st.rooms (s, room)).mpr h

theorem mem_emitToRoom {α : Type} {st : ServerState} {room : String} {p : α}
    {pr : SocketId × α} (h : pr ∈ emitToRoom st room p) :
    (pr.1, room) ∈ st.rooms ∧ pr.2 = p := by
  obtain ⟨m, hm, he⟩ := List.mem_map.mp h
  obtain ⟨q, hq, he2⟩ := List.mem_map.mp hm
  rw [List.mem_filter] at hq
  have hq2 : q.2 = room := by simpa using hq.2
  subst he
  constructor
  · simpa [← he2, ← hq2] using hq.1
  · rfl

theorem setAssoc_pos {α : Type} {m : List (String × α)} {k : String} (v : α)
    (h : m.any (fun p => p.1 == k) = true) :
    setAssoc m k v = m.map (fun p => if p.1 == k then (k, v) else p) := by
  rw [setAssoc, if_pos h]

theorem setAssoc_neg {α : Type} {m : List (String × α)} {k : String} (v : α)
    (h : m.any (fun p => p.1 == k) = false) :
    setAssoc m k v = (k, v) :: m := by
  rw [setAssoc, if_neg]
  simp [h]

theorem getAssoc_cons_pos {α : Type} {a : String × α} {t : List (String × α)}
    {k : String} (ha : a.1 = k) : getAssoc (a :: t) k = some a.2 := by
  rw [getAssoc, List.find?_cons_of_pos _ (by simp [ha])]
  rfl

theorem getAssoc_cons_neg {α : Type} {a : String × α} {t : List (String × α)}
    {k : String} (ha : a.1 ≠ k) : getAssoc (a :: t) k = getAssoc t k := by
  rw [getAssoc, List.find?_cons_of_neg _ (by simp [ha]), getAssoc]

theorem getAssoc_setAssoc {α : Type} (m : List (String × α)) (k : String)
    (v : α) : getAssoc (setAssoc m k v) k = some v := by
  induction m with
  | nil =>
    rw [setAssoc_neg v (by simp), getAssoc_cons_pos rfl]
  | cons a t ih =>
    by_cases ha : a.1 = k
    · have hany : (a :: t).any (fun p => p.1 == k) = true := by simp [ha]
      have hfa : (if a.1 == k then (k, v) else a) = (k, v) := by simp [ha]
      rw [setAssoc_pos v hany, List.map_cons, hfa, getAssoc_cons_pos rfl]
    · cases ht : t.any (fun p => p.1 == k) with
      | true =>
        have hany : (a :: t).any (fun p => p.1 == k) = true := by
          simp [List.any_cons, ht]
        have hfa : (if a.1 == k then (k, v) else a) = a := by simp [ha]
        rw [setAssoc_pos v hany, List.map_cons, hfa, getAssoc_cons_neg ha,
          ← setAssoc_pos v ht]
        exact ih
      | false =>
        have hany : (a :: t).any (fun p => p.1 == k) = false := by
          simp [List.any_cons, ht, ha]
        rw [setAssoc_neg v hany, getAssoc_cons_pos rfl]

theorem setAssoc_of_forall_ne {α : Type} {m : List (String × α)} {k : String}
    (v : α) (h : ∀ p ∈ m, p.1 ≠ k) : setAssoc m k v = (k, v) :: m := by
  unfold setAssoc
  have ha : m.any (fun p => p.1 == k) = false := by
    rw [List.any_eq_false]
    intro p hp
    simpa using h p hp
  simp [ha]

theorem delAssoc_of_forall_ne {α : Type} {m : List (String × α)} {k : String}
    (h : ∀ p ∈ m, p.1 ≠ k) : delAssoc m k = m := by
  unfold delAssoc
  rw [List.filter_eq_self]
  intro p hp
  simpa using h p hp

theorem joinRoom_connectedUsers (st : ServerState) (s : SocketId)
    (room : String) : (joinRoom st s room).connectedUsers = st.connectedUsers := by
  unfold joinRoom
  split <;> rfl

theorem mem_joinRoom_self (st : ServerState) (s : SocketId) (room : String) :
    (s, room) ∈ (joinRoom st s room).rooms := by
  unfold joinRoom
  split <;> simp [*]

theorem mem_joinRoom_of_mem {st : ServerState} {x : SocketId × String}
    (s : SocketId) (room : String) (h : x ∈ st.rooms) :
    x ∈ (joinRoom st s room).rooms := by
  unfold joinRoom
  split <;> simp [h]

theorem authenticate_connectedUsers (st : ServerState) (s : SocketId)
    (u : UserId) :
    (authenticate st s u).connectedUsers = setAssoc st.connectedUsers s u := by
  unfold authenticate
  rw [joinRoom_connectedUsers]

theorem mem_authenticate_self (st : ServerState) (s : SocketId) (u : UserId) :
    (s, "user:" ++ u) ∈ (authenticate st s u).rooms :=
  mem_joinRoom_self _ s ("user:" ++ u)

theorem mem_authenticate_of_mem {st : ServerState} {x : SocketId × String}
    (s : SocketId) (u : UserId) (h : x ∈ st.rooms) :
    x ∈ (authenticate st s u).rooms :=
  mem_joinRoom_of_mem s ("user:" ++ u) h

/-! Injectivity of the decimal rendering used by the minted message id. -/

/-- Numeric value read back from a most-significant-first digit list. -/
def digitsVal (l : List Char) : Nat :=
  l.foldl (fun a c => 10 * a + (c.toNat - 48)) 0

theorem toDigitsCore_append (f : Nat) : ∀ (n : Nat) (ds : List Char),
    Nat.toDigitsCore 10 f n ds = Nat.toDigitsCore 10 f n [] ++ ds := by
  induction f with
  | zero => intro n ds; rfl
  | succ f ih =>
    intro n ds
    simp only [Nat.toDigitsCore]
    by_cases h : n / 10 = 0
    · simp [h]
    · simp only [h, if_false]
      rw [ih (n / 10) (Nat.digitChar (n % 10) :: ds),
        ih (n / 10) [Nat.digitChar (n % 10)], List.append_assoc]
      rfl

theorem toDigitsCore_fuel : ∀ (n f₁ f₂ : Nat), n < f₁ → n < f₂ →
    Nat.toDigitsCore 10 f₁ n [] = Nat.toDigitsCore 10 f₂ n [] := by
  intro n
  induction n using Nat.strong_induction_on with
  | _ n ih =>
    intro f₁ f₂ h₁ h₂
    match f₁, f₂, h₁, h₂ with
    | g₁ + 1, g₂ + 1, h₁, h₂ =>
      simp only [Nat.toDigitsCore]
      by_cases h : n / 10 = 0
      · simp [h]
      · simp only [h, if_false]
        have h10 : 10 ≤ n := by
          by_contra hlt
          exact h (Nat.div_eq_of_lt (by omega))
        have hdiv : n / 10 < n := Nat.div_lt_self (by omega) (by omega)
        rw [toDigitsCore_append g₁, toDigitsCore_append g₂,
          ih (n / 10) hdiv g₁ g₂ (by omega) (by omega)]

/-- The decimal digit list of a natural, as Nat.toDigits 10 produces it. -/
def digs (n : Nat) : List Char := Nat.toDigitsCore 10 (n + 1) n []

theorem digs_of_lt {n : Nat} (h : n < 10) : digs n = [Nat.digitChar n] := by
  unfold digs
  simp only [Nat.toDigitsCore]
  simp [Nat.div_eq_of_lt h, Nat.mod_eq_of_lt h]

theorem digs_of_ge {n : Nat} (h : 10 ≤ n) :
    digs n = digs (n / 10) ++ [Nat.digitChar (n % 10)] := by
  have h0 : ¬ n / 10 = 0 := by
    intro he
    have h1 : 1 ≤ n / 10 := (Nat.one_le_div_iff (by omega)).mpr h
    omega
  have hdiv : n / 10 < n := Nat.div_lt_self (by omega) (by omega)
  show Nat.toDigitsCore 10 (n + 1) n [] = _
  simp only [Nat.toDigitsCore]
  rw [if_neg h0, toDigitsCore_append n (n / 10) [Nat.digitChar (n % 10)],
    toDigitsCore_fuel (n / 10) n (n / 10 + 1) hdiv (Nat.lt_succ_self _)]
  rfl

theorem digitsVal_append_singleton (l : List Char) (c : Char) :
    digitsVal (l ++ [c]) = 10 * digitsVal l + (c.toNat - 48) := by
  simp [digitsVal, List.foldl_append]

theorem digitChar_toNat_sub {d : Nat} (h : d < 10) :
    (Nat.digitChar d).toNat - 48 = d := by
  interval_cases d <;> rfl

theorem digitsVal_digs (n : Nat) : digitsVal (digs n) = n := by
  induction n using Nat.strong_induction_on with
  | _ n ih =>
    by_cases h : n < 10
    · rw [digs_of_lt h]
      have hc := digitChar_toNat_sub h
      simp [digitsVal, hc]
    · push_neg at h
      have hdiv : n / 10 < n := Nat.div_lt_self (by omega) (by omega)
      rw [digs_of_ge h, digitsVal_append_singleton, ih _ hdiv,
        digitChar_toNat_sub (Nat.mod_lt _ (by omega))]
      omega

theorem Nat_repr_inj {m n : Nat} (h : Nat.repr m = Nat.repr n) : m = n := by
  have hm : Nat.repr m = (digs m).asString := rfl
  have hn : Nat.repr n = (digs n).asString := rfl
  rw [hm, hn] at h
  have hd : digs m = digs n := congrArg String.data h
  calc m = digitsVal (digs m) := (digitsVal_digs m).symm
    _ = digitsVal (digs n) := by rw [hd]
    _ = n := digitsVal_digs n

theorem string_append_cancel_left {a b c : String} (h : a ++ b = a ++ c) :
    b = c := by
  obtain ⟨la⟩ := a
  obtain ⟨lb⟩ := b
  obtain ⟨lc⟩ := c
  have h2 : la ++ lb = la ++ lc := congrArg String.data h
  exact congrArg String.mk (List.append_cancel_left h2)

theorem mintId_inj {n₁ n₂ : Millis} (h : mintId n₁ = mintId n₂) : n₁ = n₂ :=
  Nat_repr_inj (string_append_cancel_left h)

theorem length_pos_deliveriesTo_emitToRoom_iff {α : Type} (st : ServerState)
    (room : String) (p : α) (s : SocketId) :
    0 < (deliveriesTo (emitToRoom st room p) s).length ↔
      (s, room) ∈ st.rooms := by
  rw [deliveriesTo_emitToRoom, List.length_replicate]
  exact length_pos_filter_decide_iff st.rooms (s, room)

/-! The claims. -/

/-- C1: a chat:send event is emitted to the receiver's identity group only:
the handler leaves the server state unchanged, every connection that is a
member of the room user:receiverId receives exactly one chat:receive payload
(a connection outside that room, in particular one only in the sender's own
identity group, receives none), and every delivered payload carries the
server-minted id msg-now, the current server timestamp, and read = false,
so all recipients see the same message id. -/
theorem chat_send_routing (st : ServerState) (d : ChatSendData) (now : Millis)
    (s : SocketId) (hwf : st.rooms.Nodup) :
    (chatSend st d now).1 = st ∧
    (deliveriesTo (chatSend st d now).2 s).length =
      (if (s, "user:" ++ d.receiverId) ∈ st.rooms then 1 else 0) ∧
    ∀ pr ∈ (chatSend st d now).2,
      (pr.1, "user:" ++ d.receiverId) ∈ st.rooms ∧
      pr.2.id = mintId now ∧ pr.2.timestamp = now ∧ pr.2.read = false ∧
      pr.2.senderId = d.senderId ∧ pr.2.senderName = d.senderName ∧
      pr.2.message = d.message := by
  refine ⟨rfl, length_deliveriesTo_emitToRoom st _ _ s hwf, ?_⟩
  intro pr hpr
  obtain ⟨hmem, hpay⟩ := mem_emitToRoom hpr
  rw [hpay]
  exact ⟨hmem, rfl, rfl, rfl, rfl, rfl, rfl⟩

/-- C1 witness: identity B is authenticated on two devices b1 and b2; a
chat:send addressed to B delivers exactly once to each of them and not at
all to identity A's device a1. -/
theorem chat_send_routing_witness :
    (deliveriesTo (chatSend stB2 ⟨"B", "A", "Ada", "hello"⟩ 7).2 ("b1")).length
        = 1 ∧
    (deliveriesTo (chatSend stB2 ⟨"B", "A", "Ada", "hello"⟩ 7).2 ("b2")).length
        = 1 ∧
    (deliveriesTo (chatSend stB2 ⟨"B", "A", "Ada", "hello"⟩ 7).2 ("a1")).length
        = 0 := by
  refine ⟨?_, ?_, ?_⟩
  · have h := (chat_send_routing stB2 ⟨"B", "A", "Ada", "hello"⟩ 7 ("b1")
      (by decide)).2.1
    rwa [if_pos (by decide)] at h
  · have h := (chat_send_routing stB2 ⟨"B", "A", "Ada", "hello"⟩ 7 ("b2")
      (by decide)).2.1
    rwa [if_pos (by decide)] at h
  · have h := (chat_send_routing stB2 ⟨"B", "A", "Ada", "hello"⟩ 7 ("a1")
      (by decide)).2.1
    rwa [if_neg (by decide)] at h

/-- C2: a case:update event leaves the state unchanged, every delivered
payload is the update itself, and a socket receives it exactly when it is in
the case room, or an assignee identity is supplied and the socket is in that
assignee's identity room (assignee identities are nonempty strings, matching
the JS truthiness test of server.js:156). -/
theorem case_update_routing (st : ServerState) (d : CaseUpdateData)
    (s : SocketId)
    (hne : ∀ u, d.assignedUserId = some u → u ≠ "") :
    (caseUpdate st d).1 = st ∧
    (∀ p ∈ deliveriesTo (caseUpdate st d).2 s, p = d.update) ∧
    (0 < (deliveriesTo (caseUpdate st d).2 s).length ↔
      ((s, "case:" ++ d.caseId) ∈ st.rooms ∨
        ∃ u, d.assignedUserId = some u ∧ (s, "user:" ++ u) ∈ st.rooms)) := by
  refine ⟨rfl, ?_, ?_⟩
  · intro p hp
    cases ha : d.assignedUserId with
    | none =>
      simp only [caseUpdate, ha] at hp
      rw [List.append_nil] at hp
      exact eq_of_mem_deliveriesTo_emitToRoom hp
    | some u =>
      have hu : u ≠ "" := hne u ha
      simp only [caseUpdate, ha, if_neg hu, deliveriesTo_append,
        List.mem_append] at hp
      rcases hp with hp | hp <;> exact eq_of_mem_deliveriesTo_emitToRoom hp
  · cases ha : d.assignedUserId with
    | none =>
      simp only [caseUpdate, ha]
      rw [List.append_nil, length_pos_deliveriesTo_emitToRoom_iff]
      simp
    | some u =>
      have hu : u ≠ "" := hne u ha
      simp only [caseUpdate, ha, if_neg hu, deliveriesTo_append,
        List.length_append]
      rw [add_pos_iff, length_pos_deliveriesTo_emitToRoom_iff,
        length_pos_deliveriesTo_emitToRoom_iff]
      constructor
      · rintro (h | h)
        · exact Or.inl h
        · exact Or.inr ⟨u, rfl, h⟩
      · rintro (h | ⟨u₂, hu₂, h⟩)
        · exact Or.inl h
        · cases hu₂
          exact Or.inr h

/-- C2 witness: a socket in the assignee's identity room but not in the case
room still receives the update when the assignee is supplied. -/
theorem case_update_routing_witness :
    0 < (deliveriesTo (caseUpdate ⟨[], [("s1", "case:42"), ("s2", "user:B")],
        []⟩ ⟨"42", "upd", some ("B")⟩).2 ("s2")).length :=
  ((case_update_routing ⟨[], [("s1", "case:42"), ("s2", "user:B")], []⟩
      ⟨"42", "upd", some ("B")⟩ "s2"
      (by intro u hu; cases hu; decide)).2.2).mpr
    (Or.inr ⟨"B", rfl, by decide⟩)

/-- C3: the response cache on GET requests. A cached entry of timestamp T is
served unchanged, without running the downstream handler, for a request at
time T' with T' - T < 30000 ms; at T' - T ≥ 30000 ms the cached value is not
served and the handler recomputes; on a miss the JSON result is stored under
the key req.originalUrl, which is exactly the request path plus query
string; a non-GET request neither reads nor writes the cache. -/
theorem cache_read_path (cache : Cache) (now : Millis) (req : Req)
    (handler : Req → HandlerResp) (e : CacheEntry) (status : Nat)
    (data : String) :
    (req.method = "GET" → getAssoc cache req.originalUrl = some e →
      now - e.timestamp < CACHE_TTL →
      cacheMiddleware cache now req handler =
        (CacheOutcome.servedFromCache e.data, cache)) ∧
    (req.method = "GET" → getAssoc cache req.originalUrl = some e →
      CACHE_TTL ≤ now - e.timestamp →
      (cacheMiddleware cache now req handler).1 =
        CacheOutcome.computed (handler req)) ∧
    (req.method = "GET" → getAssoc cache req.originalUrl = none →
      handler req = HandlerResp.jsonResp status data →
      cacheMiddleware cache now req handler =
        (CacheOutcome.computed (HandlerResp.jsonResp status data),
          setAssoc cache req.originalUrl ⟨data, now⟩)) ∧
    (req.method ≠ "GET" →
      cacheMiddleware cache now req handler =
        (CacheOutcome.computed (handler req), cache)) := by
  refine ⟨?_, ?_, ?_, ?_⟩
  · intro hm hc hf
    simp [cacheMiddleware, hm, hc, hf]
  · intro hm hc hf
    have hnf : ¬ (now - e.timestamp < CACHE_TTL) := Nat.not_lt.mpr hf
    cases hh : handler req <;> simp [cacheMiddleware, hm, hc, hnf, hh]
  · intro hm hc hh
    simp [cacheMiddleware, hm, hc, hh]
  · intro hm
    simp [cacheMiddleware, hm]

/-- C3 witness: a value cached at time 0 is served at 29000 ms, recomputed
at 31000 ms, and a POST to the same URL passes straight through. -/
theorem cache_read_path_witness :
    (cacheMiddleware [("/api/cases?page=1", ⟨"v1", 0⟩)] 29000
        ⟨"GET", "/api/cases?page=1"⟩ (fun _ => HandlerResp.jsonResp 200 ("v2")) =
      (CacheOutcome.servedFromCache ("v1"), [("/api/cases?page=1", ⟨"v1", 0⟩)])) ∧
    ((cacheMiddleware [("/api/cases?page=1", ⟨"v1", 0⟩)] 31000
        ⟨"GET", "/api/cases?page=1"⟩
        (fun _ => HandlerResp.jsonResp 200 ("v2"))).1 =
      CacheOutcome.computed (HandlerResp.jsonResp 200 ("v2"))) ∧
    (cacheMiddleware [("/api/cases?page=1", ⟨"v1", 0⟩)] 31000
        ⟨"POST", "/api/cases?page=1"⟩ (fun _ => HandlerResp.jsonResp 200 ("v2")) =
      (CacheOutcome.computed (HandlerResp.jsonResp 200 ("v2")),
        [("/api/cases?page=1", ⟨"v1", 0⟩)])) :=
  ⟨(cache_read_path _ 29000 _ _ ⟨"v1", 0⟩ 200 ("v2")).1 rfl (by decide)
      (by decide),
    (cache_read_path _ 31000 _ _ ⟨"v1", 0⟩ 200 ("v2")).2.1 rfl (by decide)
      (by decide),
    (cache_read_path _ 31000 ⟨"POST", "/api/cases?page=1"⟩
      (fun _ => HandlerResp.jsonResp 200 ("v2")) ⟨"v1", 0⟩ 200 ("v2")).2.2.2
      (by decide)⟩

/-- C4 counterexample: the res.json override of cacheMiddleware stores any
JSON response to a GET request, including a status-500 error body, and a
later request inside the freshness window is served that error body from
the cache. -/
theorem error_response_cached :
    (cacheMiddleware [] 0 ⟨"GET", "/api/cases"⟩
        (fun _ => HandlerResp.jsonResp 500 ("boom"))).2 =
      [("/api/cases", ⟨"boom", 0⟩)] ∧
    (cacheMiddleware [("/api/cases", ⟨"boom", 0⟩)] 1000 ⟨"GET", "/api/cases"⟩
        (fun _ => HandlerResp.jsonResp 200 ("fresh"))).1 =
      CacheOutcome.servedFromCache ("boom") := by
  constructor <;> rfl

/-- C4 amended: every response sent through res.json to a GET cache miss is
stored, whatever its status code (error responses included), and no non-GET
request ever invalidates or removes an existing cache entry, so staleness
is bounded only by the time window. -/
theorem cache_stores_any_json_and_writes_never_invalidate (cache : Cache)
    (now : Millis) (req : Req) (handler : Req → HandlerResp) (status : Nat)
    (data : String) (hm : req.method = "GET")
    (hmiss : getAssoc cache req.originalUrl = none)
    (hh : handler req = HandlerResp.jsonResp status data) :
    (cacheMiddleware cache now req handler).2 =
      setAssoc cache req.originalUrl ⟨data, now⟩ ∧
    ∀ (req' : Req) (handler' : Req → HandlerResp), req'.method ≠ "GET" →
      (cacheMiddleware cache now req' handler').2 = cache := by
  constructor
  · simp [cacheMiddleware, hm, hmiss, hh]
  · intro req' handler' hne
    simp [cacheMiddleware, hne]

/-- C4 amended witness: a status-500 JSON body is stored on a GET miss. -/
theorem cache_stores_any_json_witness :
    (cacheMiddleware [] 5 ⟨"GET", "/api/x"⟩
        (fun _ => HandlerResp.jsonResp 500 ("err"))).2 =
      setAssoc [] "/api/x" ⟨"err", 5⟩ :=
  (cache_stores_any_json_and_writes_never_invalidate [] 5 ⟨"GET", "/api/x"⟩
    (fun _ => HandlerResp.jsonResp 500 ("err")) 500 ("err") rfl rfl rfl).1

/-- C5 counterexample: a freshly connected socket that never authenticated
becomes a member of the resource group case:42 by sending join:case. -/
theorem join_case_without_auth :
    ("s1", "case:" ++ "42") ∈
      (joinCase (onConnection initialState ("s1")) "s1" "42").rooms ∧
    getAssoc (joinCase (onConnection initialState ("s1")) "s1" "42").connectedUsers
      ("s1") = none := by
  decide

/-- C5 amended: the join:case handler adds the connection to the resource
group unconditionally, authenticated or not — it performs no authentication
check and leaves the socket-to-identity map untouched. -/
theorem join_case_unconditional (st : ServerState) (s : SocketId)
    (caseId : String) :
    (s, "case:" ++ caseId) ∈ (joinCase st s caseId).rooms ∧
    (joinCase st s caseId).connectedUsers = st.connectedUsers :=
  ⟨mem_joinRoom_self st s ("case:" ++ caseId),
    joinRoom_connectedUsers st s ("case:" ++ caseId)⟩

/-- C6 counterexample: authenticating connection c as i1 and then as i2
does not give the state of authenticating as i2 alone — c is still a member
of i1's identity room and still receives a chat message addressed to i1. -/
theorem reauthentication_not_equivalent :
    authenticate (authenticate (onConnection initialState ("c")) "c" "i1") "c"
        "i2" ≠
      authenticate (onConnection initialState ("c")) "c" "i2" ∧
    0 < (deliveriesTo (chatSend (authenticate (authenticate (onConnection
        initialState ("c")) "c" "i1") "c" "i2") ⟨"i1", "x", "X", "hi"⟩ 5).2
        ("c")).length := by
  decide

/-- C6 amended: re-authentication raises no error and replaces the
socket-to-identity map binding (the lookup now yields i2, and c joins i2's
identity room), but the connection also remains a member of the previous
identity room user:i1, so it still receives direct deliveries addressed to
i1. -/
theorem reauthenticate_rebinds_and_keeps_old_group (st : ServerState)
    (c : SocketId) (i₁ i₂ : UserId) (sd sn msg : String) (now : Millis) :
    getAssoc (authenticate (authenticate st c i₁) c i₂).connectedUsers c =
      some i₂ ∧
    (c, "user:" ++ i₂) ∈ (authenticate (authenticate st c i₁) c i₂).rooms ∧
    (c, "user:" ++ i₁) ∈ (authenticate (authenticate st c i₁) c i₂).rooms ∧
    0 < (deliveriesTo (chatSend (authenticate (authenticate st c i₁) c i₂)
        ⟨i₁, sd, sn, msg⟩ now).2 c).length := by
  have hm1 : (c, "user:" ++ i₁) ∈
      (authenticate (authenticate st c i₁) c i₂).rooms :=
    mem_authenticate_of_mem c i₂ (mem_authenticate_self st c i₁)
  refine ⟨?_, mem_authenticate_self _ c i₂, hm1, ?_⟩
  · rw [authenticate_connectedUsers, authenticate_connectedUsers]
    exact getAssoc_setAssoc _ c i₂
  · exact length_pos_deliveriesTo_emitToRoom _ _ _ c hm1

/-- C7 counterexample: two distinct chat:send events processed at the same
wall-clock millisecond receive the same server-minted id. -/
theorem chat_message_id_collision :
    (⟨"B", "A", "Ada", "one"⟩ : ChatSendData) ≠ ⟨"B", "A", "Ada", "two"⟩ ∧
    (chatReceivePayload ⟨"B", "A", "Ada", "one"⟩ 1000).id =
      (chatReceivePayload ⟨"B", "A", "Ada", "two"⟩ 1000).id :=
  ⟨by decide, rfl⟩

/-- C7 amended: the server-minted id depends only on the clock reading:
two chat:receive payloads carry the same id exactly when they were minted
at the same wall-clock millisecond, so ids of messages minted at different
milliseconds are distinct, and ids minted in the same millisecond always
collide. -/
theorem chat_message_id_eq_iff_same_instant (d₁ d₂ : ChatSendData)
    (n₁ n₂ : Millis) :
    (chatReceivePayload d₁ n₁).id = (chatReceivePayload d₂ n₂).id ↔
      n₁ = n₂ := by
  constructor
  · exact fun h => mintId_inj h
  · intro h
    rw [h]
    rfl

/-- C8: publishing a case:update whose target groups have no members raises
no error (the handler is total), delivers to no connection, and leaves the
whole server state unchanged. -/
theorem publish_to_empty_group (st : ServerState) (d : CaseUpdateData)
    (hcase : membersOf st ("case:" ++ d.caseId) = [])
    (huser : ∀ u, d.assignedUserId = some u →
      membersOf st ("user:" ++ u) = []) :
    caseUpdate st d = (st, []) := by
  have hc : emitToRoom st ("case:" ++ d.caseId) d.update = [] := by
    simp only [emitToRoom, hcase, List.map_nil]
  cases ha : d.assignedUserId with
  | none => simp [caseUpdate, ha, hc]
  | some u =>
    have hu : emitToRoom st ("user:" ++ u) d.update = [] := by
      simp only [emitToRoom, huser u ha, List.map_nil]
    by_cases he : u = ""
    · simp [caseUpdate, ha, hc, he]
    · simp [caseUpdate, ha, hc, hu, he]

/-- C8 witness: publishing an update for case 42, which no connection has
joined, in the two-device state: nothing is delivered, nothing changes. -/
theorem publish_to_empty_group_witness :
    caseUpdate stB2 ⟨"42", "upd", none⟩ = (stB2, []) :=
  publish_to_empty_group stB2 ⟨"42", "upd", none⟩ (by decide)
    (fun u h => nomatch h)

/-- C9: when a case:update supplies an assignee, a socket that is both in
the case room and in that assignee's identity room receives the update
twice for the single publish — the two room emits are independent and not
deduplicated. -/
theorem assignee_in_case_room_double_delivery (st : ServerState)
    (d : CaseUpdateData) (s : SocketId) (u : UserId) (hwf : st.rooms.Nodup)
    (ha : d.assignedUserId = some u) (hu : u ≠ "")
    (hc : (s, "case:" ++ d.caseId) ∈ st.rooms)
    (hm : (s, "user:" ++ u) ∈ st.rooms) :
    (deliveriesTo (caseUpdate st d).2 s).length = 2 := by
  simp only [caseUpdate, ha, if_neg hu]
  rw [deliveriesTo_append, List.length_append,
    length_deliveriesTo_emitToRoom st _ _ s hwf,
    length_deliveriesTo_emitToRoom st _ _ s hwf, if_pos hc, if_pos hm]

/-- C9 witness: socket s1 views case 42 and is a device of assignee B; the
update arrives twice. -/
theorem assignee_double_delivery_witness :
    (deliveriesTo (caseUpdate ⟨[], [("s1", "case:42"), ("s1", "user:B")], []⟩
        ⟨"42", "upd", some ("B")⟩).2 ("s1")).length = 2 :=
  assignee_in_case_room_double_delivery
    ⟨[], [("s1", "case:42"), ("s1", "user:B")], []⟩ ⟨"42", "upd", some ("B")⟩
    "s1" "B" (by decide) rfl (by decide) (by decide) (by decide)

/-- C10: the /health connection count is the size of the socket-to-identity
map, not the number of live transport connections: a connect alone leaves
the count unchanged while adding a live socket, authenticating adds one,
and disconnecting an authenticated socket brings the count back down by
one (for a real, nonempty identity, matching the truthy guard of the
delete). -/
theorem health_counts_authenticated (st : ServerState) (s : SocketId)
    (uid : UserId) (hfresh : ∀ p ∈ st.connectedUsers, p.1 ≠ s)
    (huid : uid ≠ "") :
    healthSockets (onConnection st s) = healthSockets st ∧
    (onConnection st s).liveSockets.length = st.liveSockets.length + 1 ∧
    healthSockets (authenticate (onConnection st s) s uid) =
      healthSockets st + 1 ∧
    healthSockets (disconnect (authenticate (onConnection st s) s uid) s) =
      healthSockets st := by
  have hcu : (authenticate (onConnection st s) s uid).connectedUsers =
      (s, uid) :: st.connectedUsers := by
    rw [authenticate_connectedUsers]
    exact setAssoc_of_forall_ne uid hfresh
  have hget : getAssoc ((s, uid) :: st.connectedUsers) s = some uid :=
    getAssoc_cons_pos rfl
  have hdel : delAssoc ((s, uid) :: st.connectedUsers) s =
      st.connectedUsers := by
    simp only [delAssoc, List.filter_cons, bne_self_eq_false]
    exact delAssoc_of_forall_ne hfresh
  have hdisc : (disconnect (authenticate (onConnection st s) s uid)
      s).connectedUsers = st.connectedUsers := by
    simp only [disconnect, hcu, hget, if_neg huid, hdel]
  refine ⟨rfl, rfl, ?_, ?_⟩
  · rw [healthSockets, hcu, List.length_cons, healthSockets]
  · rw [healthSockets, hdisc, healthSockets]

/-- C10 witness: a fresh socket c1 connects to the two-device state,
authenticates as C, and disconnects; the health count returns to its old
value. -/
theorem health_counts_witness :
    healthSockets (disconnect (authenticate (onConnection stB2 ("c1")) "c1"
        "C") "c1") = healthSockets stB2 :=
  (health_counts_authenticated stB2 ("c1") "C" (by decide) (by decide)).2.2.2

end PrinceProject
